import Mathlib

/-!
# Verification of the TradingClient quote-aggregation and order-routing core

Shallow embedding of `src/client.py` (`TradingClient.get_best_price`,
`TradingClient.place_order`) together with the price-normalization logic of
the two exchange adapters (`BinanceClient.get_btcusdt_price` in
`src/exchange/binance_client.py`, and the Bybit raw-response handling inlined
in `client.py`).

Modelling conventions:
* Python numbers (floats) are modelled as rationals `ℚ`; the code only
  compares and passes prices through, so no floating-point rounding is
  involved in any property proved here.  A numeric string payload (such as
  Bybit's `lastPrice` value `'61000.0'`, which the code immediately passes to
  `float()`) is modelled as a numeric JSON leaf carrying its parsed value.
* Raised Python exceptions are modelled with `Except PyErr`; the
  `try/except ...: logging...; raise` wrappers in the source log and re-raise
  the exception unchanged, so they are identity on the `Except` value.
* The outcome of each adapter's HTTP request is an input (`AdapterBehavior`),
  since the transport layer is outside the core.  Every call the core makes
  to an adapter is recorded in a trace (`List Call`), so that claims about
  which adapter calls happen (and in which order) are statable.
-/

/-- JSON-like values as returned by the exchanges' HTTP APIs (the shapes the
code subscripts into).  Numeric strings are modelled as `num` with their
parsed value, because the code applies `float()` to every leaf it uses. -/
inductive Json where
  | null : Json
  | num (q : ℚ) : Json
  | arr (xs : List Json) : Json
  | obj (kvs : List (String × Json)) : Json

/-- Python exceptions raised by the modelled code. -/
inductive PyErr where
  | keyError (k : String) : PyErr
  | indexError : PyErr
  | typeError (msg : String) : PyErr
  | valueError (msg : String) : PyErr
  | transportError (msg : String) : PyErr
deriving DecidableEq, Repr

/-- An adapter call made by `TradingClient`.  `get_btcusdt_price` takes no
symbol (Binance's endpoint is hard-coded to BTCUSDT); `get_price` receives
the symbol; the order-placement calls receive `(symbol, side, quantity)`
exactly as `client.py` passes them. -/
inductive Call where
  | binanceGetPrice : Call
  | bybitGetPrice (symbol : String) : Call
  | binancePlaceOrder (symbol side : String) (quantity : ℚ) : Call
  | bybitPlaceOrder (symbol side : String) (quantity : ℚ) : Call
deriving DecidableEq, Repr

/-- Opaque per-exchange order response payload (a string-keyed mapping),
passed through unmodified. -/
def OrderRes : Type := List (String × String)
deriving DecidableEq

/-- Lookup of a key in a JSON object's key-value list (first match, as in a
Python dict with distinct keys). -/
def lookupKey : List (String × Json) → String → Option Json
  | [], _ => none
  | (k', v) :: rest, k => if k' = k then some v else lookupKey rest k

/-- Python `d[k]` on a JSON value: `KeyError` on a missing key, `TypeError`
when the value is not a mapping (e.g. subscripting `None`). -/
def getItemS : Json → String → Except PyErr Json
  | Json.obj kvs, k =>
    match lookupKey kvs k with
    | some v => .ok v
    | none => .error (.keyError k)
  | _, _ => .error (.typeError "object is not subscriptable")

/-- Python `l[i]` on a JSON value: `IndexError` when out of range,
`TypeError` when the value is not a list. -/
def getItemN : Json → Nat → Except PyErr Json
  | Json.arr xs, i =>
    match xs[i]? with
    | some v => .ok v
    | none => .error .indexError
  | _, _ => .error (.typeError "object is not subscriptable")

/-- Python `k in d` for a JSON object (the code only applies it to the parsed
dict response). -/
def jsonHasKey (j : Json) (k : String) : Bool :=
  match j with
  | Json.obj kvs => (lookupKey kvs k).isSome
  | _ => false

/-- Python `x is None` test on a JSON leaf. -/
def isNull : Json → Bool
  | Json.null => true
  | _ => false

/-- Python `float(x)` on a JSON leaf: succeeds on a number (or numeric
string, modelled as `num`), `TypeError` on `None` and on non-numeric
values. -/
def pyFloat : Json → Except PyErr ℚ
  | Json.num q => .ok q
  | Json.null => .error (.typeError "float() argument must be a string or a real number, not NoneType")
  | _ => .error (.typeError "float() argument must be a string or a real number")

/-- `BinanceClient.get_btcusdt_price` applied to a successfully fetched JSON
response (`binance_client.py`): `return float(data['price'])` — a missing
`'price'` key raises `KeyError`, a `None` value raises `TypeError`; the
surrounding `except` clause logs and re-raises unchanged. -/
def get_btcusdt_price (data : Json) : Except PyErr ℚ := do
  let v ← getItemS data "price"
  pyFloat v

/-- The chained subscript `bybit_price_data['result']['list'][0]['lastPrice']`
from `client.py`. -/
def bybitLeaf (d : Json) : Except PyErr Json := do
  let r ← getItemS d "result"
  let l ← getItemS r "list"
  let e ← getItemN l 0
  getItemS e "lastPrice"

/-- The Bybit normalization expression in `TradingClient.get_best_price`
(`client.py`):
`float(d['result']['list'][0]['lastPrice']) if 'result' in d and d['result']['list'][0]['lastPrice'] is not None else None`.
The `and` short-circuits, so a missing `'result'` key yields `None`; but when
`'result'` is present the chained subscripts run inside the condition, so a
missing `'list'`/`'lastPrice'` key or an empty list raises. -/
def bybitNormalize (d : Json) : Except PyErr (Option ℚ) :=
  if jsonHasKey d "result" then
    match bybitLeaf d with
    | .error e => .error e
    | .ok leaf =>
      if isNull leaf then .ok none
      else (pyFloat leaf).map some
  else .ok none

/-- Python string comparison (lexicographic by code point), character by
character: a strict prefix compares below. -/
def pyStrLtChars : List Char → List Char → Bool
  | [], [] => false
  | [], _ :: _ => true
  | _ :: _, [] => false
  | a :: as, b :: bs => if a < b then true else if b < a then false else pyStrLtChars as bs

/-- Python `a < b` on strings, over their character lists. -/
def pyStrLt (a b : String) : Bool := pyStrLtChars a.data b.data

/-- Python tuple comparison `(price, name) < (price', name')` as used by
`min`/`max` in `get_best_price`: lexicographic, prices first, then the
exchange-name strings. -/
def pyTupleLt (a b : ℚ × String) : Bool :=
  decide (a.1 < b.1) || (decide (a.1 = b.1) && pyStrLt a.2 b.2)

/-- Python `min(iterable)`: `ValueError` on an empty iterable, otherwise the
first element that compares strictly below every later one (later elements
replace the current best only when strictly smaller). -/
def pyMin : List (ℚ × String) → Except PyErr (ℚ × String)
  | [] => .error (.valueError "min() arg is an empty sequence")
  | x :: xs => .ok (xs.foldl (fun best y => if pyTupleLt y best then y else best) x)

/-- Python `max(iterable)`: `ValueError` on an empty iterable, otherwise keeps
the current best unless a later element is strictly greater. -/
def pyMax : List (ℚ × String) → Except PyErr (ℚ × String)
  | [] => .error (.valueError "max() arg is an empty sequence")
  | x :: xs => .ok (xs.foldl (fun best y => if pyTupleLt best y then y else best) x)

/-- The filtered quote list built inside `get_best_price`:
`(price, name) for price, name in [(binance_price, 'Binance'), (bybit_price, 'Bybit')] if price is not None`.
`binance_price` is always present at this point (it came out of `float()`). -/
def filteredQuotes (binance_price : ℚ) (bybit_price : Option ℚ) : List (ℚ × String) :=
  [(some binance_price, "Binance"), (bybit_price, "Bybit")].filterMap
    (fun pn => pn.1.map (fun p => (p, pn.2)))

/-- Outcomes of the adapters' transport-level operations, supplied as input:
the parsed JSON body of each price request (or the raised exception), and the
result of each exchange's order placement. -/
structure AdapterBehavior where
  binanceGetPrice : Except PyErr Json
  bybitGetPrice : Except PyErr Json
  binancePlaceOrder : Except PyErr OrderRes
  bybitPlaceOrder : Except PyErr OrderRes

/-- `TradingClient.get_best_price(symbol, price_type)` from `client.py`,
paired with the trace of adapter calls it makes.  Steps, in source order:
`binance_price = float(self.binance_client.get_btcusdt_price())` (the
adapter's own extraction runs inside the call; the outer `float()` of an
already-`float` value is the identity), then
`bybit_price_data = self.bybit_client.get_price(symbol)` and the Bybit
normalization expression, then `min`/`max` over the filtered quote pairs by
`price_type`, else `raise ValueError(...)`.  The outer `try/except` logs and
re-raises, leaving the outcome unchanged. -/
def get_best_price (env : AdapterBehavior) (symbol : String) (price_type : String) :
    Except PyErr (ℚ × String) × List Call :=
  match env.binanceGetPrice with
  | .error e => (.error e, [Call.binanceGetPrice])
  | .ok data =>
    match get_btcusdt_price data with
    | .error e => (.error e, [Call.binanceGetPrice])
    | .ok binance_price =>
      match env.bybitGetPrice with
      | .error e => (.error e, [Call.binanceGetPrice, Call.bybitGetPrice symbol])
      | .ok bybit_price_data =>
        match bybitNormalize bybit_price_data with
        | .error e => (.error e, [Call.binanceGetPrice, Call.bybitGetPrice symbol])
        | .ok bybit_price =>
          let res : Except PyErr (ℚ × String) :=
            if price_type = "lowest" then
              pyMin (filteredQuotes binance_price bybit_price)
            else if price_type = "highest" then
              pyMax (filteredQuotes binance_price bybit_price)
            else
              .error (.valueError "Invalid price_type. Use 'lowest' or 'highest'.")
          (res, [Call.binanceGetPrice, Call.bybitGetPrice symbol])

/-- Python `str.lower()` (the code applies it to `side`), over the string's
character list. -/
def pyLower (s : String) : String := ⟨s.data.map Char.toLower⟩

/-- `TradingClient.place_order(side, quantity, symbol, exchange)` from
`client.py`, paired with the trace of adapter calls.  Steps, in source order:
reject `side not in ['Buy', 'Sell']`; when `exchange is None`, resolve it via
`get_best_price` (`'lowest'` for a buy, `'highest'` for a sell), any failure
propagating; dispatch to `binance_client.place_order` / `bybit_client.place_order`
on `'Binance'` / `'Bybit'`, else raise the invalid-exchange `ValueError`.
The outer `try/except` logs and re-raises, leaving the outcome unchanged. -/
def place_order (env : AdapterBehavior) (side : String) (quantity : ℚ)
    (symbol : String) (exchange : Option String) :
    Except PyErr OrderRes × List Call :=
  if !(side = "Buy" || side = "Sell") then
    (.error (.valueError "Invalid side. Side must be either 'Buy' or 'Sell'."), [])
  else
    let resolved : Except PyErr String × List Call :=
      match exchange with
      | some ex => (.ok ex, [])
      | none =>
        if pyLower side = "buy" then
          match get_best_price env symbol "lowest" with
          | (.ok (_, ex), tr) => (.ok ex, tr)
          | (.error e, tr) => (.error e, tr)
        else if pyLower side = "sell" then
          match get_best_price env symbol "highest" with
          | (.ok (_, ex), tr) => (.ok ex, tr)
          | (.error e, tr) => (.error e, tr)
        else
          (.error (.valueError "Invalid side. Side must be either 'Buy' or 'Sell'."), [])
    match resolved with
    | (.error e, tr) => (.error e, tr)
    | (.ok ex, tr) =>
      if ex = "Binance" then
        (env.binancePlaceOrder, tr ++ [Call.binancePlaceOrder symbol side quantity])
      else if ex = "Bybit" then
        (env.bybitPlaceOrder, tr ++ [Call.bybitPlaceOrder symbol side quantity])
      else
        (.error (.valueError "Invalid exchange name. Use 'Binance' or 'Bybit'."), tr)

/-- A Binance `/api/v3/ticker/price` response carrying price `b`. -/
def mkBinanceResp (b : ℚ) : Json := Json.obj [("price", Json.num b)]

/-- A Bybit `/v5/market/tickers` response whose first list entry carries
`lastPrice` `y` (`null` when `y` is absent). -/
def mkBybitResp (y : Option ℚ) : Json :=
  Json.obj [("result", Json.obj [("list",
    Json.arr [Json.obj [("lastPrice", match y with | some q => Json.num q | none => Json.null)]])])]

/-- An adapter environment where both price requests succeed with the given
normalized prices and order placements return the given results. -/
def mkEnv (b : ℚ) (y : Option ℚ) (r₁ r₂ : Except PyErr OrderRes) : AdapterBehavior :=
  ⟨.ok (mkBinanceResp b), .ok (mkBybitResp y), r₁, r₂⟩

/-- An adapter environment in which every adapter's price response lacks a
usable price: the Binance body has no `'price'` key and the Bybit body's
`lastPrice` leaf is `null`. -/
def envAllAbsent : AdapterBehavior :=
  ⟨.ok (Json.obj []), .ok (mkBybitResp none), .ok [], .ok []⟩

/-- An adapter environment whose Binance price request fails in transport. -/
def envBinanceDown : AdapterBehavior :=
  ⟨.error (.transportError "Request timed out"), .ok (mkBybitResp (some 61000)), .ok [], .ok []⟩

/-- An adapter environment whose Bybit price request fails in transport. -/
def envBybitDown : AdapterBehavior :=
  ⟨.ok (mkBinanceResp 60000), .error (.transportError "Request timed out"), .ok [], .ok []⟩

/-- Number of order-placement calls in a trace. -/
def countOrderCalls (tr : List Call) : Nat :=
  tr.countP (fun c =>
    match c with
    | Call.binancePlaceOrder _ _ _ => true
    | Call.bybitPlaceOrder _ _ _ => true
    | _ => false)

example : get_btcusdt_price (mkBinanceResp 60000) = .ok 60000 := by rfl

example : bybitNormalize (mkBybitResp (some 61000)) = .ok (some 61000) := by rfl

example : bybitNormalize (mkBybitResp none) = .ok none := by rfl

example :
    get_best_price (mkEnv 60000 (some 61000) (.ok []) (.ok [])) "BTCUSDT" "lowest"
      = (.ok (60000, "Binance"), [Call.binanceGetPrice, Call.bybitGetPrice "BTCUSDT"]) := by
  rfl

example :
    get_best_price (mkEnv 60000 (some 61000) (.ok []) (.ok [])) "BTCUSDT" "highest"
      = (.ok (61000, "Bybit"), [Call.binanceGetPrice, Call.bybitGetPrice "BTCUSDT"]) := by
  rfl

/-! ## Helper lemmas about the embedded operations -/

lemma get_btcusdt_price_mk (b : ℚ) : get_btcusdt_price (mkBinanceResp b) = .ok b := rfl

lemma bybitNormalize_mk (y : Option ℚ) : bybitNormalize (mkBybitResp y) = .ok y := by
  cases y <;> rfl

lemma get_best_price_eq (env : AdapterBehavior) (sym pt : String) (dbin dbyb : Json)
    (b : ℚ) (y : Option ℚ) (hbin : env.binanceGetPrice = .ok dbin)
    (hbin2 : get_btcusdt_price dbin = .ok b) (hbyb : env.bybitGetPrice = .ok dbyb)
    (hbyb2 : bybitNormalize dbyb = .ok y) :
    get_best_price env sym pt =
      ((if pt = "lowest" then pyMin (filteredQuotes b y)
        else if pt = "highest" then pyMax (filteredQuotes b y)
        else .error (.valueError "Invalid price_type. Use 'lowest' or 'highest'.")),
       [Call.binanceGetPrice, Call.bybitGetPrice sym]) := by
  simp only [get_best_price, hbin, hbin2, hbyb, hbyb2]

lemma pyStrLt_bybit_binance : pyStrLt "Bybit" "Binance" = false := by decide

lemma pyStrLt_binance_bybit : pyStrLt "Binance" "Bybit" = true := by decide

lemma filteredQuotes_none (b : ℚ) : filteredQuotes b none = [(b, "Binance")] := rfl

lemma filteredQuotes_some (b q : ℚ) :
    filteredQuotes b (some q) = [(b, "Binance"), (q, "Bybit")] := rfl

lemma pyMin_filtered_none (b : ℚ) : pyMin (filteredQuotes b none) = .ok (b, "Binance") := rfl

lemma pyMax_filtered_none (b : ℚ) : pyMax (filteredQuotes b none) = .ok (b, "Binance") := rfl

lemma pyMin_filtered_some (b q : ℚ) :
    pyMin (filteredQuotes b (some q)) =
      .ok (if q < b then (q, "Bybit") else (b, "Binance")) := by
  simp [pyMin, filteredQuotes, pyTupleLt, pyStrLt_bybit_binance]

lemma pyMax_filtered_some (b q : ℚ) :
    pyMax (filteredQuotes b (some q)) =
      .ok (if b ≤ q then (q, "Bybit") else (b, "Binance")) := by
  rcases lt_trichotomy b q with h | h | h
  · simp [pyMax, filteredQuotes, pyTupleLt, pyStrLt_binance_bybit, h, le_of_lt h, h.ne]
  · subst h
    simp [pyMax, filteredQuotes, pyTupleLt, pyStrLt_binance_bybit]
  · simp [pyMax, filteredQuotes, pyTupleLt, h.not_lt, h.ne', h.not_le]

lemma countOrderCalls_gbp (env : AdapterBehavior) (sym pt : String) :
    countOrderCalls (get_best_price env sym pt).2 = 0 := by
  rcases hbin : env.binanceGetPrice with e | d
  · simp [get_best_price, hbin, countOrderCalls]
  · rcases hbin2 : get_btcusdt_price d with e | b
    · simp [get_best_price, hbin, hbin2, countOrderCalls]
    · rcases hbyb : env.bybitGetPrice with e | d2
      · simp [get_best_price, hbin, hbin2, hbyb, countOrderCalls]
      · rcases hbyb2 : bybitNormalize d2 with e | y
        · simp [get_best_price, hbin, hbin2, hbyb, hbyb2, countOrderCalls]
        · simp [get_best_price, hbin, hbin2, hbyb, hbyb2, countOrderCalls]

lemma mem_filteredQuotes_name (b : ℚ) (y : Option ℚ) (p : ℚ) (ex : String)
    (h : (p, ex) ∈ filteredQuotes b y) : ex = "Binance" ∨ ex = "Bybit" := by
  cases y with
  | none =>
    rw [filteredQuotes_none, List.mem_singleton] at h
    exact Or.inl (congrArg Prod.snd h)
  | some q =>
    rw [filteredQuotes_some, List.mem_cons, List.mem_singleton] at h
    rcases h with h | h
    · exact Or.inl (congrArg Prod.snd h)
    · exact Or.inr (congrArg Prod.snd h)

/-! ## Claims -/

/-- C1: for every non-empty set of (exchange, non-null price) pairs obtained
from the adapters (the Binance price is always present once its extraction
succeeded), `get_best_price` with `price_type='lowest'` returns a pair of the
filtered quote set whose price is minimal, and with `'highest'` one whose
price is maximal; in both modes the returned exchange identifier is the one
paired with that price in the quote set. -/
theorem getBestPrice_selects_extremum (env : AdapterBehavior) (sym : String)
    (dbin dbyb : Json) (b : ℚ) (y : Option ℚ)
    (hbin : env.binanceGetPrice = .ok dbin) (hbin2 : get_btcusdt_price dbin = .ok b)
    (hbyb : env.bybitGetPrice = .ok dbyb) (hbyb2 : bybitNormalize dbyb = .ok y) :
    (∃ p ex, (get_best_price env sym "lowest").1 = .ok (p, ex) ∧
       (p, ex) ∈ filteredQuotes b y ∧ ∀ q ∈ filteredQuotes b y, p ≤ q.1) ∧
    (∃ p ex, (get_best_price env sym "highest").1 = .ok (p, ex) ∧
       (p, ex) ∈ filteredQuotes b y ∧ ∀ q ∈ filteredQuotes b y, q.1 ≤ p) := by
  constructor
  · rw [get_best_price_eq env sym "lowest" dbin dbyb b y hbin hbin2 hbyb hbyb2]
    cases y with
    | none =>
      refine ⟨b, "Binance", ?_, ?_, ?_⟩ <;>
        simp [pyMin, filteredQuotes_none]
    | some q =>
      by_cases h : q < b
      · refine ⟨q, "Bybit", ?_, ?_, ?_⟩
        · simp [pyMin_filtered_some, h]
        · simp [filteredQuotes_some]
        · rw [filteredQuotes_some]
          intro r hr
          rw [List.mem_cons, List.mem_singleton] at hr
          rcases hr with rfl | rfl
          · exact le_of_lt h
          · exact le_refl q
      · refine ⟨b, "Binance", ?_, ?_, ?_⟩
        · simp [pyMin_filtered_some, h]
        · simp [filteredQuotes_some]
        · rw [filteredQuotes_some]
          intro r hr
          rw [List.mem_cons, List.mem_singleton] at hr
          rcases hr with rfl | rfl
          · exact le_refl b
          · exact not_lt.mp h
  · rw [get_best_price_eq env sym "highest" dbin dbyb b y hbin hbin2 hbyb hbyb2]
    cases y with
    | none =>
      refine ⟨b, "Binance", ?_, ?_, ?_⟩ <;>
        simp [pyMax, filteredQuotes_none]
    | some q =>
      by_cases h : b ≤ q
      · refine ⟨q, "Bybit", ?_, ?_, ?_⟩
        · simp [pyMax_filtered_some, h]
        · simp [filteredQuotes_some]
        · rw [filteredQuotes_some]
          intro r hr
          rw [List.mem_cons, List.mem_singleton] at hr
          rcases hr with rfl | rfl
          · exact h
          · exact le_refl q
      · refine ⟨b, "Binance", ?_, ?_, ?_⟩
        · simp [pyMax_filtered_some, h]
        · simp [filteredQuotes_some]
        · rw [filteredQuotes_some]
          intro r hr
          rw [List.mem_cons, List.mem_singleton] at hr
          rcases hr with rfl | rfl
          · exact le_refl b
          · exact le_of_lt (not_le.mp h)

/-- Witness for C1 at the concrete quote set Binance = 60000, Bybit = 61000. -/
theorem getBestPrice_selects_extremum_witness :
    (∃ p ex,
       (get_best_price (mkEnv 60000 (some 61000) (.ok []) (.ok [])) "BTCUSDT" "lowest").1
         = .ok (p, ex) ∧
       (p, ex) ∈ filteredQuotes 60000 (some 61000) ∧
       ∀ q ∈ filteredQuotes 60000 (some 61000), p ≤ q.1) ∧
    (∃ p ex,
       (get_best_price (mkEnv 60000 (some 61000) (.ok []) (.ok [])) "BTCUSDT" "highest").1
         = .ok (p, ex) ∧
       (p, ex) ∈ filteredQuotes 60000 (some 61000) ∧
       ∀ q ∈ filteredQuotes 60000 (some 61000), q.1 ≤ p) :=
  getBestPrice_selects_extremum (mkEnv 60000 (some 61000) (.ok []) (.ok []))
    "BTCUSDT" (mkBinanceResp 60000) (mkBybitResp (some 61000)) 60000 (some 61000)
    rfl rfl rfl (bybitNormalize_mk (some 61000))

/-- C2 counterexample: with every adapter response lacking a usable price
(Binance body without a `'price'` key, Bybit `lastPrice` `null`),
`get_best_price` does not fail with a dedicated no-quotes error: it fails
with the `KeyError('price')` raised inside the Binance adapter's own
extraction, before the Bybit adapter is even queried — the code defines no
`NoQuotesAvailable` error and never reaches the empty filtered set. -/
theorem getBestPrice_noQuotes_counterexample :
    get_best_price envAllAbsent "BTCUSDT" "lowest"
      = (.error (.keyError "price"), [Call.binanceGetPrice]) ∧
    get_best_price envAllAbsent "BTCUSDT" "highest"
      = (.error (.keyError "price"), [Call.binanceGetPrice]) := ⟨rfl, rfl⟩

/-- C2 amended: when the Binance response carries no usable price, the
`KeyError`/`TypeError` raised inside the Binance adapter propagates out of
`get_best_price` unchanged (Bybit unqueried), for every symbol and mode; the
filtered quote set is never empty once both normalizations succeed (the
Binance price is always present), so the empty-set branch is unreachable —
and if it were reached, Python's `min` would raise its own `ValueError`,
there being no `NoQuotesAvailable` error anywhere in the code. -/
theorem getBestPrice_noQuotes_amended :
    (∀ (env : AdapterBehavior) (sym pt : String) (d : Json) (e : PyErr),
       env.binanceGetPrice = .ok d → get_btcusdt_price d = .error e →
       get_best_price env sym pt = (.error e, [Call.binanceGetPrice])) ∧
    (∀ (b : ℚ) (y : Option ℚ), filteredQuotes b y ≠ []) ∧
    pyMin [] = .error (.valueError "min() arg is an empty sequence") := by
  refine ⟨?_, ?_, rfl⟩
  · intro env sym pt d e h1 h2
    simp [get_best_price, h1, h2]
  · intro b y
    cases y <;> simp [filteredQuotes]

/-- Witness for C2 (amended) at the all-absent environment. -/
theorem getBestPrice_noQuotes_amended_witness :
    get_best_price envAllAbsent "BTCUSDT" "lowest"
      = (.error (.keyError "price"), [Call.binanceGetPrice]) :=
  getBestPrice_noQuotes_amended.1 envAllAbsent "BTCUSDT" "lowest"
    (Json.obj []) (.keyError "price") rfl rfl

/-- C3 counterexample: two of the cases the claim lists as "yields an absent
price rather than raising" in fact raise: a Binance response with no
`'price'` key raises `KeyError` inside `get_btcusdt_price`, and a Bybit
response whose nested `result.list` is empty raises `IndexError` inside the
normalization condition. -/
theorem normalization_absent_counterexample :
    get_btcusdt_price (Json.obj []) = .error (.keyError "price") ∧
    bybitNormalize (Json.obj [("result", Json.obj [("list", Json.arr [])])])
      = .error .indexError := ⟨rfl, rfl⟩

/-- C3 amended: the Bybit normalization yields an absent price for a missing
`'result'` key and for a `null` `lastPrice` leaf; but a Binance response
with no `'price'` key raises `KeyError` (inside the adapter itself), and a
Bybit response with an empty nested `result.list` raises `IndexError`. -/
theorem normalization_absent_amended :
    (∀ d : Json, jsonHasKey d "result" = false → bybitNormalize d = .ok none) ∧
    (∀ rest : List Json,
       bybitNormalize (Json.obj [("result", Json.obj [("list",
         Json.arr (Json.obj [("lastPrice", Json.null)] :: rest))])]) = .ok none) ∧
    get_btcusdt_price (Json.obj []) = .error (.keyError "price") ∧
    bybitNormalize (Json.obj [("result", Json.obj [("list", Json.arr [])])])
      = .error .indexError := by
  refine ⟨?_, ?_, rfl, rfl⟩
  · intro d h
    simp [bybitNormalize, h]
  · intro rest
    simp [bybitNormalize, bybitLeaf, jsonHasKey, lookupKey, getItemS, getItemN, isNull,
      Bind.bind, Except.bind]

/-- Witness for C3 (amended): a Bybit body without a `'result'` key
normalizes to an absent price. -/
theorem normalization_absent_amended_witness :
    bybitNormalize (Json.obj [("retCode", Json.num 0)]) = .ok none :=
  normalization_absent_amended.1 (Json.obj [("retCode", Json.num 0)]) rfl

/-- C4 counterexample: when both exchanges report the identical price 100,
the two modes do not pick the same exchange: `'lowest'` returns Binance
while `'highest'` returns Bybit (Python's tuple `min`/`max` falls through to
the exchange-name strings on a price tie). -/
theorem tieBreak_counterexample :
    (get_best_price (mkEnv 100 (some 100) (.ok []) (.ok [])) "BTCUSDT" "lowest").1
      = .ok (100, "Binance") ∧
    (get_best_price (mkEnv 100 (some 100) (.ok []) (.ok [])) "BTCUSDT" "highest").1
      = .ok (100, "Bybit") ∧
    ("Bybit" : String) ≠ "Binance" := ⟨rfl, rfl, by decide⟩

/-- C4 amended: the tie-break is deterministic for every symbol and price,
but mode-dependent rather than a single fixed priority order: on a tie
`'lowest'` selects Binance (the lexicographically smaller exchange name) and
`'highest'` selects Bybit (the larger), by Python tuple comparison. -/
theorem tieBreak_amended (sym : String) (p : ℚ) (r₁ r₂ : Except PyErr OrderRes) :
    (get_best_price (mkEnv p (some p) r₁ r₂) sym "lowest").1 = .ok (p, "Binance") ∧
    (get_best_price (mkEnv p (some p) r₁ r₂) sym "highest").1 = .ok (p, "Bybit") := by
  rw [get_best_price_eq (mkEnv p (some p) r₁ r₂) sym "lowest" (mkBinanceResp p)
      (mkBybitResp (some p)) p (some p) rfl rfl rfl (bybitNormalize_mk _),
    get_best_price_eq (mkEnv p (some p) r₁ r₂) sym "highest" (mkBinanceResp p)
      (mkBybitResp (some p)) p (some p) rfl rfl rfl (bybitNormalize_mk _)]
  constructor
  · simp [pyMin_filtered_some]
  · simp [pyMax_filtered_some]

lemma pyLower_buy : pyLower "Buy" = "buy" := rfl

lemma pyLower_sell : pyLower "Sell" = "sell" := rfl

lemma countOrderCalls_nil : countOrderCalls [] = 0 := rfl

lemma countOrderCalls_append (t₁ t₂ : List Call) :
    countOrderCalls (t₁ ++ t₂) = countOrderCalls t₁ + countOrderCalls t₂ :=
  List.countP_append _ _ _

lemma countOrderCalls_single_binance (sym side : String) (qty : ℚ) :
    countOrderCalls [Call.binancePlaceOrder sym side qty] = 1 := rfl

lemma countOrderCalls_single_bybit (sym side : String) (qty : ℚ) :
    countOrderCalls [Call.bybitPlaceOrder sym side qty] = 1 := rfl

/-- C5: when `exchange` is `None`, a `'Buy'` order resolves its venue with
`get_best_price(symbol, 'lowest')` and a `'Sell'` order with
`get_best_price(symbol, 'highest')`; in both cases the order is dispatched
to the adapter of the exchange returned by that call (its order result is
passed through, and the single order-placement call carries
`(symbol, side, quantity)`). -/
theorem placeOrder_autoroutes (env : AdapterBehavior) (sym : String) (qty : ℚ)
    (dbin dbyb : Json) (b : ℚ) (y : Option ℚ)
    (hbin : env.binanceGetPrice = .ok dbin) (hbin2 : get_btcusdt_price dbin = .ok b)
    (hbyb : env.bybitGetPrice = .ok dbyb) (hbyb2 : bybitNormalize dbyb = .ok y) :
    (∃ p ex, (get_best_price env sym "lowest").1 = .ok (p, ex) ∧
       place_order env "Buy" qty sym none =
         ((if ex = "Binance" then env.binancePlaceOrder else env.bybitPlaceOrder),
          [Call.binanceGetPrice, Call.bybitGetPrice sym,
           if ex = "Binance" then Call.binancePlaceOrder sym "Buy" qty
           else Call.bybitPlaceOrder sym "Buy" qty])) ∧
    (∃ p ex, (get_best_price env sym "highest").1 = .ok (p, ex) ∧
       place_order env "Sell" qty sym none =
         ((if ex = "Binance" then env.binancePlaceOrder else env.bybitPlaceOrder),
          [Call.binanceGetPrice, Call.bybitGetPrice sym,
           if ex = "Binance" then Call.binancePlaceOrder sym "Sell" qty
           else Call.bybitPlaceOrder sym "Sell" qty])) := by
  have hlow : get_best_price env sym "lowest" =
      (pyMin (filteredQuotes b y), [Call.binanceGetPrice, Call.bybitGetPrice sym]) := by
    rw [get_best_price_eq env sym "lowest" dbin dbyb b y hbin hbin2 hbyb hbyb2]
    simp
  have hhigh : get_best_price env sym "highest" =
      (pyMax (filteredQuotes b y), [Call.binanceGetPrice, Call.bybitGetPrice sym]) := by
    rw [get_best_price_eq env sym "highest" dbin dbyb b y hbin hbin2 hbyb hbyb2]
    simp
  constructor
  · cases y with
    | none =>
      refine ⟨b, "Binance", ?_, ?_⟩
      · rw [hlow]
        simp [pyMin, filteredQuotes_none]
      · simp [place_order, hlow, pyLower_buy, pyMin, filteredQuotes_none]
    | some q =>
      by_cases h : q < b
      · refine ⟨q, "Bybit", ?_, ?_⟩
        · rw [hlow]
          simp [pyMin_filtered_some, h]
        · simp [place_order, hlow, pyLower_buy, pyMin_filtered_some, h]
      · refine ⟨b, "Binance", ?_, ?_⟩
        · rw [hlow]
          simp [pyMin_filtered_some, h]
        · simp [place_order, hlow, pyLower_buy, pyMin_filtered_some, h]
  · cases y with
    | none =>
      refine ⟨b, "Binance", ?_, ?_⟩
      · rw [hhigh]
        simp [pyMax, filteredQuotes_none]
      · simp [place_order, hhigh, pyLower_sell, pyMax, filteredQuotes_none]
    | some q =>
      by_cases h : b ≤ q
      · refine ⟨q, "Bybit", ?_, ?_⟩
        · rw [hhigh]
          simp [pyMax_filtered_some, h]
        · simp [place_order, hhigh, pyLower_sell, pyMax_filtered_some, h]
      · refine ⟨b, "Binance", ?_, ?_⟩
        · rw [hhigh]
          simp [pyMax_filtered_some, h]
        · simp [place_order, hhigh, pyLower_sell, pyMax_filtered_some, h]

/-- Witness for C5 at the concrete quote set Binance = 60000, Bybit = 61000. -/
theorem placeOrder_autoroutes_witness :
    (∃ p ex,
       (get_best_price (mkEnv 60000 (some 61000) (.ok []) (.ok [])) "BTCUSDT" "lowest").1
         = .ok (p, ex) ∧
       place_order (mkEnv 60000 (some 61000) (.ok []) (.ok [])) "Buy" 1 "BTCUSDT" none =
         ((if ex = "Binance" then (mkEnv 60000 (some 61000) (.ok []) (.ok [])).binancePlaceOrder
           else (mkEnv 60000 (some 61000) (.ok []) (.ok [])).bybitPlaceOrder),
          [Call.binanceGetPrice, Call.bybitGetPrice "BTCUSDT",
           if ex = "Binance" then Call.binancePlaceOrder "BTCUSDT" "Buy" 1
           else Call.bybitPlaceOrder "BTCUSDT" "Buy" 1])) ∧
    (∃ p ex,
       (get_best_price (mkEnv 60000 (some 61000) (.ok []) (.ok [])) "BTCUSDT" "highest").1
         = .ok (p, ex) ∧
       place_order (mkEnv 60000 (some 61000) (.ok []) (.ok [])) "Sell" 1 "BTCUSDT" none =
         ((if ex = "Binance" then (mkEnv 60000 (some 61000) (.ok []) (.ok [])).binancePlaceOrder
           else (mkEnv 60000 (some 61000) (.ok []) (.ok [])).bybitPlaceOrder),
          [Call.binanceGetPrice, Call.bybitGetPrice "BTCUSDT",
           if ex = "Binance" then Call.binancePlaceOrder "BTCUSDT" "Sell" 1
           else Call.bybitPlaceOrder "BTCUSDT" "Sell" 1])) :=
  placeOrder_autoroutes (mkEnv 60000 (some 61000) (.ok []) (.ok [])) "BTCUSDT" 1
    (mkBinanceResp 60000) (mkBybitResp (some 61000)) 60000 (some 61000)
    rfl rfl rfl (bybitNormalize_mk _)

/-- C6: for every side other than `'Buy'` and `'Sell'`, `place_order` fails
with the invalid-side `ValueError` and makes zero adapter calls and zero
aggregator calls (the trace is empty), whatever the quantity, symbol and
exchange arguments. -/
theorem placeOrder_invalid_side (env : AdapterBehavior) (side : String) (qty : ℚ)
    (sym : String) (exg : Option String) (h1 : side ≠ "Buy") (h2 : side ≠ "Sell") :
    place_order env side qty sym exg =
      (.error (.valueError "Invalid side. Side must be either 'Buy' or 'Sell'."), []) := by
  simp [place_order, h1, h2]

/-- Witness for C6 with side `'Hold'`. -/
theorem placeOrder_invalid_side_witness :
    place_order (mkEnv 60000 (some 61000) (.ok []) (.ok [])) "Hold" 1 "BTCUSDT" (some "Binance")
      = (.error (.valueError "Invalid side. Side must be either 'Buy' or 'Sell'."), []) :=
  placeOrder_invalid_side _ "Hold" 1 "BTCUSDT" (some "Binance") (by decide) (by decide)

/-- C7: for every valid side and an explicit exchange other than `'Binance'`
and `'Bybit'`, `place_order` fails with the invalid-exchange `ValueError`
making zero adapter calls (the trace is empty: the order is rejected before
dispatch). -/
theorem placeOrder_invalid_exchange (env : AdapterBehavior) (side : String) (qty : ℚ)
    (sym ex : String) (hside : side = "Buy" ∨ side = "Sell")
    (h1 : ex ≠ "Binance") (h2 : ex ≠ "Bybit") :
    place_order env side qty sym (some ex) =
      (.error (.valueError "Invalid exchange name. Use 'Binance' or 'Bybit'."), []) := by
  rcases hside with rfl | rfl <;> simp [place_order, h1, h2]

/-- Witness for C7 with side `'Buy'` and exchange `'Unknown'`. -/
theorem placeOrder_invalid_exchange_witness :
    place_order (mkEnv 60000 (some 61000) (.ok []) (.ok [])) "Buy" 1 "BTCUSDT" (some "Unknown")
      = (.error (.valueError "Invalid exchange name. Use 'Binance' or 'Bybit'."), []) :=
  placeOrder_invalid_exchange _ "Buy" 1 "BTCUSDT" "Unknown" (Or.inl rfl)
    (by decide) (by decide)

/-- C8: an adapter price-call failure propagates out of `get_best_price`
unchanged (the very same error value, not wrapped), no best-price result is
produced, and — the queries being sequential with Binance first — when the
Binance query fails the trace shows the Bybit adapter's `get_price` was
never attempted. -/
theorem getBestPrice_propagates_adapter_errors (env : AdapterBehavior) (sym pt : String) :
    (∀ e : PyErr, env.binanceGetPrice = .error e →
       get_best_price env sym pt = (.error e, [Call.binanceGetPrice])) ∧
    (∀ (d : Json) (b : ℚ) (e : PyErr), env.binanceGetPrice = .ok d →
       get_btcusdt_price d = .ok b → env.bybitGetPrice = .error e →
       get_best_price env sym pt =
         (.error e, [Call.binanceGetPrice, Call.bybitGetPrice sym])) := by
  constructor
  · intro e h
    simp [get_best_price, h]
  · intro d b e h1 h2 h3
    simp [get_best_price, h1, h2, h3]

/-- Witness for C8 at environments with a failing Binance (resp. Bybit)
transport. -/
theorem getBestPrice_propagates_adapter_errors_witness :
    get_best_price envBinanceDown "BTCUSDT" "lowest"
      = (.error (.transportError "Request timed out"), [Call.binanceGetPrice]) ∧
    get_best_price envBybitDown "BTCUSDT" "lowest"
      = (.error (.transportError "Request timed out"),
         [Call.binanceGetPrice, Call.bybitGetPrice "BTCUSDT"]) :=
  ⟨(getBestPrice_propagates_adapter_errors envBinanceDown "BTCUSDT" "lowest").1 _ rfl,
   (getBestPrice_propagates_adapter_errors envBybitDown "BTCUSDT" "lowest").2
     (mkBinanceResp 60000) 60000 _ rfl rfl rfl⟩

/-- C9: every `place_order` invocation makes at most one order-placement
call, and exactly one (to a single exchange) whenever it returns an order
result — never more than one in any outcome. -/
theorem placeOrder_at_most_one_order (env : AdapterBehavior) (side : String)
    (qty : ℚ) (sym : String) (exg : Option String) :
    countOrderCalls (place_order env side qty sym exg).2 ≤ 1 ∧
    (∀ r : OrderRes, (place_order env side qty sym exg).1 = .ok r →
       countOrderCalls (place_order env side qty sym exg).2 = 1) := by
  by_cases hside : side = "Buy" ∨ side = "Sell"
  case neg =>
    have h1 : side ≠ "Buy" := fun h => hside (Or.inl h)
    have h2 : side ≠ "Sell" := fun h => hside (Or.inr h)
    simp [place_order, h1, h2, countOrderCalls_nil]
  case pos =>
    rcases hside with rfl | rfl
    · cases exg with
      | some ex =>
        by_cases hb : ex = "Binance"
        · subst hb
          simp [place_order, countOrderCalls_single_binance]
        · by_cases hy : ex = "Bybit"
          · subst hy
            simp [place_order, countOrderCalls_single_bybit]
          · simp [place_order, hb, hy, countOrderCalls_nil]
      | none =>
        rcases hg : get_best_price env sym "lowest" with ⟨res, tr⟩
        have h0 : countOrderCalls tr = 0 := by
          have h := countOrderCalls_gbp env sym "lowest"
          rw [hg] at h
          exact h
        cases res with
        | error e =>
          simp [place_order, hg, pyLower_buy, h0]
        | ok pe =>
          obtain ⟨p, ex⟩ := pe
          by_cases hb : ex = "Binance"
          · subst hb
            simp [place_order, hg, pyLower_buy, countOrderCalls_append,
              countOrderCalls_single_binance, h0]
          · by_cases hy : ex = "Bybit"
            · subst hy
              simp [place_order, hg, pyLower_buy, countOrderCalls_append,
                countOrderCalls_single_bybit, h0]
            · simp [place_order, hg, pyLower_buy, hb, hy, h0]
    · cases exg with
      | some ex =>
        by_cases hb : ex = "Binance"
        · subst hb
          simp [place_order, countOrderCalls_single_binance]
        · by_cases hy : ex = "Bybit"
          · subst hy
            simp [place_order, countOrderCalls_single_bybit]
          · simp [place_order, hb, hy, countOrderCalls_nil]
      | none =>
        rcases hg : get_best_price env sym "highest" with ⟨res, tr⟩
        have h0 : countOrderCalls tr = 0 := by
          have h := countOrderCalls_gbp env sym "highest"
          rw [hg] at h
          exact h
        cases res with
        | error e =>
          simp [place_order, hg, pyLower_sell, h0]
        | ok pe =>
          obtain ⟨p, ex⟩ := pe
          by_cases hb : ex = "Binance"
          · subst hb
            simp [place_order, hg, pyLower_sell, countOrderCalls_append,
              countOrderCalls_single_binance, h0]
          · by_cases hy : ex = "Bybit"
            · subst hy
              simp [place_order, hg, pyLower_sell, countOrderCalls_append,
                countOrderCalls_single_bybit, h0]
            · simp [place_order, hg, pyLower_sell, hb, hy, h0]

/-- Witness for C9: a routed buy places exactly one order. -/
theorem placeOrder_at_most_one_order_witness :
    countOrderCalls
        (place_order (mkEnv 60000 (some 61000) (.ok []) (.ok [])) "Buy" 1 "BTCUSDT" none).2
      ≤ 1 ∧
    countOrderCalls
        (place_order (mkEnv 60000 (some 61000) (.ok []) (.ok [])) "Buy" 1 "BTCUSDT" none).2
      = 1 :=
  ⟨(placeOrder_at_most_one_order (mkEnv 60000 (some 61000) (.ok []) (.ok []))
      "Buy" 1 "BTCUSDT" none).1,
   (placeOrder_at_most_one_order (mkEnv 60000 (some 61000) (.ok []) (.ok []))
      "Buy" 1 "BTCUSDT" none).2 [] rfl⟩

/-- C10: for a `price_type` other than `'lowest'` and `'highest'`, the
invalid-mode `ValueError` is raised only after both adapters' price queries
have been performed and normalized: when both pipelines succeed the result
is that `ValueError` and the trace contains both price calls (the invalid
mode is not rejected up front). -/
theorem getBestPrice_invalid_mode_after_queries (env : AdapterBehavior) (sym pt : String)
    (dbin dbyb : Json) (b : ℚ) (y : Option ℚ)
    (hbin : env.binanceGetPrice = .ok dbin) (hbin2 : get_btcusdt_price dbin = .ok b)
    (hbyb : env.bybitGetPrice = .ok dbyb) (hbyb2 : bybitNormalize dbyb = .ok y)
    (h1 : pt ≠ "lowest") (h2 : pt ≠ "highest") :
    get_best_price env sym pt =
      (.error (.valueError "Invalid price_type. Use 'lowest' or 'highest'."),
       [Call.binanceGetPrice, Call.bybitGetPrice sym]) := by
  rw [get_best_price_eq env sym pt dbin dbyb b y hbin hbin2 hbyb hbyb2]
  simp [h1, h2]

/-- Witness for C10 with `price_type='average'`. -/
theorem getBestPrice_invalid_mode_after_queries_witness :
    get_best_price (mkEnv 60000 (some 61000) (.ok []) (.ok [])) "BTCUSDT" "average"
      = (.error (.valueError "Invalid price_type. Use 'lowest' or 'highest'."),
         [Call.binanceGetPrice, Call.bybitGetPrice "BTCUSDT"]) :=
  getBestPrice_invalid_mode_after_queries _ "BTCUSDT" "average" (mkBinanceResp 60000)
    (mkBybitResp (some 61000)) 60000 (some 61000) rfl rfl rfl (bybitNormalize_mk _)
    (by decide) (by decide)
